import Mathlib

/-!
Verification development for the Trading Data Viewer service (`app.py`).

The embedding below translates the parts of the source relevant to the
aggregation engine, the table catalog and the HTTP query facade:

* `Timestamp` models the naive `bar_end_datetime` wall-clock values stored as
  zero-padded `YYYY-MM-DD HH:MM:SS` strings in SQLite; `tsCode` is a numeric
  encoding whose order agrees with SQLite's lexicographic string comparison on
  well-formed timestamps.
* `aggregate_timeframe_data` translates the Python function of the same name:
  timeframe validation against the `intervals` dict, then the SQL grouping
  query (date filter, bucket key via `strftime`/`printf` arithmetic or
  `DATE()`, per-group first/last/max/min/sum/count, `ORDER BY period ASC`,
  `LIMIT ?` with SQLite semantics where a negative limit means no bound).
  Prices are modelled as integers: the claims only involve selection, max,
  min and integer volume sums, all of which are exact.
* `detect_trading_tables` translates the catalog scan (required-column check,
  zero-row exclusion, instrument-name derivation, sort by instrument); the
  human-readable `display_name`/date-range formatting is presentation-only
  and not needed by any claim, so the descriptor keeps name, instrument and
  record count.
* `get_data` / `download_data` translate the route handlers: table-name
  character validation, existence check against the store's tables, limit
  clamping with `min`, the raw/aggregated branches, and the `except` clause
  that turns the aggregator's `ValueError` into a 500 JSON error.  The
  `barsRead` flag records whether a query over the bar table was executed.
-/

/-- A naive wall-clock timestamp as stored in `bar_end_datetime`. -/
structure Timestamp where
  year : Nat
  month : Nat
  day : Nat
  hour : Nat
  minute : Nat
  second : Nat
deriving DecidableEq, Repr

/-- Numeric encoding of a timestamp; on well-formed timestamps its order is
the lexicographic order of the `YYYY-MM-DD HH:MM:SS` strings SQLite compares. -/
def tsCode (t : Timestamp) : Nat :=
  ((((t.year * 13 + t.month) * 32 + t.day) * 24 + t.hour) * 60 + t.minute) * 60 + t.second

/-- Order on timestamps used by `ORDER BY` clauses. -/
def tsLE (a b : Timestamp) : Prop := tsCode a ≤ tsCode b

instance : DecidableRel tsLE := fun a b => Nat.decLe (tsCode a) (tsCode b)

instance : IsTotal Timestamp tsLE := ⟨fun a b => Nat.le_total (tsCode a) (tsCode b)⟩

instance : IsTrans Timestamp tsLE := ⟨fun _ _ _ => Nat.le_trans⟩

/-- A source bar row: `bar_end_datetime`, OHLC prices and a nullable volume. -/
structure Bar where
  ts : Timestamp
  open_price : Int
  high_price : Int
  low_price : Int
  close_price : Int
  volume : Option Int
deriving DecidableEq, Repr

/-- Order on bars by timestamp, used by the window functions and `ORDER BY`. -/
def barLE (a b : Bar) : Prop := tsCode a.ts ≤ tsCode b.ts

instance : DecidableRel barLE := fun a b => Nat.decLe (tsCode a.ts) (tsCode b.ts)

instance : IsTotal Bar barLE := ⟨fun a b => Nat.le_total (tsCode a.ts) (tsCode b.ts)⟩

instance : IsTrans Bar barLE := ⟨fun _ _ _ => Nat.le_trans⟩

/-- One aggregated output row of the grouping query. -/
structure AggBar where
  period : Timestamp
  open_price : Int
  high_price : Int
  low_price : Int
  close_price : Int
  volume : Int
  bar_count : Nat
deriving DecidableEq, Repr

/-- Value of SQL `MAX` over a group (0 for the empty list, which the grouping
query never produces). -/
def listMax : List Int → Int
  | [] => 0
  | x :: xs => xs.foldl max x

/-- Value of SQL `MIN` over a group. -/
def listMin : List Int → Int
  | [] => 0
  | x :: xs => xs.foldl min x

/-- Reduce one bucket (given in ascending timestamp order) to its aggregated
row: first bar's open, last bar's close, max high, min low, volume sum with
NULLs contributing 0, and the bar count. -/
def mkAgg (p : Timestamp) (bs : List Bar) : AggBar where
  period := p
  open_price := ((bs.head?).map Bar.open_price).getD 0
  high_price := listMax (bs.map Bar.high_price)
  low_price := listMin (bs.map Bar.low_price)
  close_price := ((bs.getLast?).map Bar.close_price).getD 0
  volume := (bs.map (fun b => b.volume.getD 0)).sum
  bar_count := bs.length

/-- Bucket key for a sub-daily interval: the SQL rebuilds the timestamp from
its date, its hour, `(minute / interval) * interval` and second `00`. -/
def bucketStart (m : Nat) (t : Timestamp) : Timestamp :=
  ⟨t.year, t.month, t.day, t.hour, t.minute / m * m, 0⟩

/-- Bucket key for the daily interval: `DATE(bar_end_datetime)`, modelled as
the timestamp truncated to midnight. -/
def dateKey (t : Timestamp) : Timestamp :=
  ⟨t.year, t.month, t.day, 0, 0, 0⟩

/-- Key function selected by the interval width, as in the two SQL branches. -/
def keyFor (m : Nat) : Timestamp → Timestamp :=
  if m = 1440 then dateKey else bucketStart m

/-- The distinct group keys of the query, in ascending `period` order. -/
def groupKeys (keyf : Timestamp → Timestamp) (bars : List Bar) : List Timestamp :=
  ((bars.map (fun b => keyf b.ts)).dedup).insertionSort tsLE

/-- The rows belonging to one group, in ascending timestamp order (the order
imposed by the `ROW_NUMBER() OVER (... ORDER BY bar_end_datetime)` windows). -/
def bucketOf (keyf : Timestamp → Timestamp) (bars : List Bar) (p : Timestamp) : List Bar :=
  (bars.filter (fun b => keyf b.ts == p)).insertionSort barLE

/-- The grouping query without the `LIMIT` clause: one aggregated row per
distinct key, ordered by period ascending. -/
def aggregateBy (keyf : Timestamp → Timestamp) (bars : List Bar) : List AggBar :=
  (groupKeys keyf bars).map (fun p => mkAgg p (bucketOf keyf bars p))

/-- The `intervals` dict of `aggregate_timeframe_data`. -/
def intervalsList : List (String × Nat) :=
  [("1min", 1), ("5min", 5), ("15min", 15), ("30min", 30),
   ("60min", 60), ("120min", 120), ("240min", 240), ("1day", 1440)]

/-- An optional `YYYY-MM-DD` date bound from the query string. -/
structure DateArg where
  year : Nat
  month : Nat
  day : Nat
deriving DecidableEq, Repr

/-- The SQL date filter: `start_date` is widened to `00:00:00` and `end_date`
to `23:59:59` before the string comparison. -/
def inDateRange (s e : Option DateArg) (t : Timestamp) : Bool :=
  (match s with
   | none => true
   | some d => decide (tsCode ⟨d.year, d.month, d.day, 0, 0, 0⟩ ≤ tsCode t)) &&
  (match e with
   | none => true
   | some d => decide (tsCode t ≤ tsCode ⟨d.year, d.month, d.day, 23, 59, 59⟩))

/-- SQLite `LIMIT ?` semantics: a non-negative bound truncates, a negative
bound means no upper bound on the number of rows returned. -/
def applyLimit (limit : Int) (xs : List α) : List α :=
  if limit < 0 then xs else xs.take limit.toNat

/-- Translation of `aggregate_timeframe_data` over the bar rows of the target
table: validate the timeframe against `intervals` (raising, i.e. returning
`.error`, before any query is built or run), then execute the grouping query
with the date filter, the interval's bucket key, ascending period order and
the `LIMIT` parameter. -/
def aggregate_timeframe_data (bars : List Bar) (timeframe : String)
    (start_date end_date : Option DateArg) (limit : Int) : Except String (List AggBar) :=
  match intervalsList.lookup timeframe with
  | none => .error ("Unsupported timeframe: " ++ timeframe)
  | some m =>
      .ok (applyLimit limit (aggregateBy (keyFor m) (bars.filter (fun b => inDateRange start_date end_date b.ts))))

deriving instance DecidableEq for Except

example :
    aggregate_timeframe_data
      [⟨⟨2024, 1, 1, 10, 14, 59⟩, 1, 2, 0, 1, some 5⟩] "15min" none none 10 =
    .ok [⟨⟨2024, 1, 1, 10, 0, 0⟩, 1, 2, 0, 1, 5, 1⟩] := by decide

example :
    aggregate_timeframe_data
      [⟨⟨2024, 1, 1, 10, 15, 0⟩, 1, 2, 0, 1, some 5⟩] "15min" none none 10 =
    .ok [⟨⟨2024, 1, 1, 10, 15, 0⟩, 1, 2, 0, 1, 5, 1⟩] := by decide

example : aggregate_timeframe_data [] "7min" none none 10 =
    .error ("Unsupported timeframe: " ++ "7min") := by decide

/-- The `required_columns` list of `detect_trading_tables`. -/
def requiredColumns : List String :=
  ["bar_end_datetime", "open_price", "high_price", "low_price", "close_price"]

/-- A table of the SQLite store: its name, its column names as reported by
`PRAGMA table_info`, and its rows (meaningful when the bar columns exist). -/
structure Table where
  name : String
  columns : List String
  bars : List Bar
deriving DecidableEq, Repr

/-- The store reachable through a database connection. -/
structure Store where
  tables : List Table
deriving DecidableEq, Repr

/-- Python's `str.lower()` on a column name (SQLite identifiers are
case-insensitive, the scan lower-cases before comparing). -/
def lowerName (s : String) : String := String.mk (s.data.map Char.toLower)

/-- Catalog qualification test: every required column occurs among the
table's lower-cased column names, and `COUNT(*)` is non-zero. -/
def tradingPred (t : Table) : Bool :=
  requiredColumns.all (fun c => (t.columns.map lowerName).contains c) &&
    decide (0 < t.bars.length)

/-- Instrument-name derivation: strip the known naming decorations and
upper-case the remainder. -/
def instrumentOf (name : String) : String :=
  (((name.replace ("_bars") ("")).replace ("_data") ("")).replace ("bars_") ("")).toUpper

/-- A catalog entry.  The human-readable `display_name` and formatted date
range are presentation-only and not touched by any claim, so the descriptor
keeps the identifying fields. -/
structure InstrumentDesc where
  table_name : String
  instrument : String
  record_count : Nat
deriving DecidableEq, Repr

/-- Build the descriptor of one qualifying table. -/
def mkDesc (t : Table) : InstrumentDesc :=
  ⟨t.name, instrumentOf t.name, t.bars.length⟩

/-- The final `sort(key=lambda x: x['instrument'])` order. -/
def descLE (a b : InstrumentDesc) : Prop := a.instrument ≤ b.instrument

instance : DecidableRel descLE :=
  fun a b => inferInstanceAs (Decidable (a.instrument ≤ b.instrument))

instance : IsTotal InstrumentDesc descLE := ⟨fun a b => le_total a.instrument b.instrument⟩

instance : IsTrans InstrumentDesc descLE := ⟨fun _ _ _ => le_trans⟩

/-- Translation of `detect_trading_tables`: on any failure to reach the store
(`conn = none`) the surrounding `except` swallows the error and returns the
empty tuple; otherwise keep the qualifying tables, build their descriptors
and sort them by instrument name. -/
def detect_trading_tables (conn : Option Store) : List InstrumentDesc :=
  match conn with
  | none => []
  | some s => ((s.tables.filter tradingPred).map mkDesc).insertionSort descLE

/-- The `lru_cache` wrapper around `detect_trading_tables`: a hit returns the
cached value without consulting the store; a miss computes and caches,
including the empty result of a failed scan. -/
def cached_detect (cache : Option (List InstrumentDesc)) (conn : Option Store) :
    List InstrumentDesc × Option (List InstrumentDesc) :=
  match cache with
  | some r => (r, some r)
  | none =>
      let r := detect_trading_tables conn
      (r, some r)

/-- The `/api/instruments` handler: `jsonify(list(detect_trading_tables()))`
always answers 200 with the (possibly empty) cached listing. -/
def get_instruments (cache : Option (List InstrumentDesc)) (conn : Option Store) :
    (Nat × List InstrumentDesc) × Option (List InstrumentDesc) :=
  let p := cached_detect cache conn
  ((200, p.1), p.2)

/-- Translation of the table-name gate
`table_name.replace('_','').replace('-','').isalnum()`: drop underscores and
hyphens, then require a non-empty all-alphanumeric remainder. -/
def validTableName (name : String) : Bool :=
  let stripped := name.data.filter (fun c => !(c == '_' || c == '-'))
  !stripped.isEmpty && stripped.all Char.isAlphanum

/-- A row of the raw (non-aggregated) branch, with NULL volume rendered as 0
by the handler's dict construction. -/
structure RawRow where
  ts : Timestamp
  open_price : Int
  high_price : Int
  low_price : Int
  close_price : Int
  volume : Int
deriving DecidableEq, Repr

/-- Shape one stored bar into a raw response row. -/
def toRawRow (b : Bar) : RawRow :=
  ⟨b.ts, b.open_price, b.high_price, b.low_price, b.close_price, b.volume.getD 0⟩

/-- JSON body of a data/download response.  The download endpoint renames the
aggregated fields and serialises to CSV or JSON; both reshapes preserve the
row count, so the body keeps the rows themselves. -/
inductive RespBody where
  | aggRows : List AggBar → RespBody
  | rawRows : List RawRow → RespBody
  | jsonError : String → RespBody
deriving DecidableEq, Repr

/-- An HTTP response of the data endpoints together with a trace flag
recording whether a query over the bar table was executed. -/
structure HResp where
  status : Nat
  body : RespBody
  barsRead : Bool
deriving DecidableEq, Repr

/-- Columns referenced by the data queries (the required ones plus
`volume`); a table lacking one makes the query raise `no such column`. -/
def queryColumns : List String := requiredColumns ++ [("volume")]

/-- Whether the data queries can run against the table. -/
def hasBarColumns (t : Table) : Bool :=
  queryColumns.all (fun c => (t.columns.map lowerName).contains c)

/-- The hard server-side cap `MAX_DATA_POINTS`. -/
def MAX_DATA_POINTS : Nat := 50000

/-- The raw branch's query: date filter, ascending timestamp order,
`LIMIT ?`, then the dict shaping. -/
def rawQuery (bars : List Bar) (s e : Option DateArg) (limit : Int) : List RawRow :=
  (applyLimit limit ((bars.filter (fun b => inDateRange s e b.ts)).insertionSort barLE)).map toRawRow

/-- Translation of the `/api/data/<table_name>` handler `get_data`:
character-set validation of the identifier, existence check against
`sqlite_master`, server-side clamp `min(limit, MAX_DATA_POINTS)`, then the
raw or aggregated query.  The handler's generic `except` turns the
aggregator's `ValueError` (and any query error) into a 500 JSON error. -/
def get_data (store : Store) (table_name timeframe : String)
    (start_date end_date : Option DateArg) (limitArg : Int) : HResp :=
  if !validTableName table_name then
    ⟨400, .jsonError ("Invalid table name format"), false⟩
  else
    match store.tables.find? (fun t => t.name == table_name) with
    | none => ⟨404, .jsonError ("Table " ++ table_name ++ " not found"), false⟩
    | some t =>
        let limit : Int := min limitArg (MAX_DATA_POINTS : Int)
        if timeframe == "raw" then
          if hasBarColumns t then
            ⟨200, .rawRows (rawQuery t.bars start_date end_date limit), true⟩
          else ⟨500, .jsonError ("no such column"), false⟩
        else
          match aggregate_timeframe_data t.bars timeframe start_date end_date limit with
          | .error msg => ⟨500, .jsonError msg, false⟩
          | .ok d =>
              if hasBarColumns t then ⟨200, .aggRows d, true⟩
              else ⟨500, .jsonError ("no such column"), false⟩

/-- Translation of the `/download/<table_name>` handler `download_data`:
identifier validation, format validation, existence check, the same clamp,
and the same raw/aggregated queries (the CSV/JSON serialisation and the
field renaming of the aggregated rows preserve the row count). -/
def download_data (store : Store) (table_name format_type timeframe : String)
    (start_date end_date : Option DateArg) (limitArg : Int) : HResp :=
  if !validTableName table_name then
    ⟨400, .jsonError ("Invalid table name format"), false⟩
  else if !(format_type.toLower == "csv" || format_type.toLower == "json") then
    ⟨400, .jsonError ("Unsupported format. Use csv or json"), false⟩
  else
    match store.tables.find? (fun t => t.name == table_name) with
    | none => ⟨404, .jsonError ("Table " ++ table_name ++ " not found"), false⟩
    | some t =>
        let limit : Int := min limitArg (MAX_DATA_POINTS : Int)
        if timeframe == "raw" then
          if hasBarColumns t then
            ⟨200, .rawRows (rawQuery t.bars start_date end_date limit), true⟩
          else ⟨500, .jsonError ("no such column"), false⟩
        else
          match aggregate_timeframe_data t.bars timeframe start_date end_date limit with
          | .error msg => ⟨500, .jsonError msg, false⟩
          | .ok d =>
              if hasBarColumns t then ⟨200, .aggRows d, true⟩
              else ⟨500, .jsonError ("no such column"), false⟩

/-- Number of data rows in a response body. -/
def respRowCount : RespBody → Nat
  | .aggRows l => l.length
  | .rawRows l => l.length
  | .jsonError _ => 0

/-- The full set of timeframe strings the endpoints accept. -/
def supportedTimeframes : List String := "raw" :: intervalsList.map Prod.fst

/-- Rebuild an aggregated bucket as an input bar (`period_start` as the
timestamp, aggregated OHLCV carried over). -/
def reconstructBar (a : AggBar) : Bar :=
  ⟨a.period, a.open_price, a.high_price, a.low_price, a.close_price, some a.volume⟩

/-- The OHLCV content of an aggregated bucket with `bar_count` ignored. -/
def stripCount (a : AggBar) : Timestamp × Int × Int × Int × Int × Int :=
  (a.period, a.open_price, a.high_price, a.low_price, a.close_price, a.volume)

theorem mem_applyLimit {α : Type} {xs : List α} {a : α} {n : Int}
    (h : a ∈ applyLimit n xs) : a ∈ xs := by
  unfold applyLimit at h
  by_cases hn : n < 0
  · simpa [hn] using h
  · rw [if_neg hn] at h
    exact List.mem_of_mem_take h

theorem applyLimit_sublist {α : Type} (n : Int) (xs : List α) :
    List.Sublist (applyLimit n xs) xs := by
  unfold applyLimit
  by_cases hn : n < 0
  · rw [if_pos hn]
  · rw [if_neg hn]
    exact List.take_sublist _ _

theorem applyLimit_natCast {α : Type} (n : Nat) (xs : List α) :
    applyLimit (n : Int) xs = xs.take n := by
  unfold applyLimit
  rw [if_neg (Int.not_lt.mpr (Int.natCast_nonneg n)), Int.toNat_natCast]

theorem length_applyLimit_le {α : Type} {n : Int} (hn : 0 ≤ n) (xs : List α) :
    (applyLimit n xs).length ≤ n.toNat := by
  unfold applyLimit
  rw [if_neg (Int.not_lt.mpr hn), List.length_take]
  exact min_le_left _ _

theorem applyLimit_of_le {α : Type} {n : Int} {xs : List α}
    (h : 0 ≤ n → xs.length ≤ n.toNat) : applyLimit n xs = xs := by
  unfold applyLimit
  by_cases hn : n < 0
  · rw [if_pos hn]
  · rw [if_neg hn]
    exact List.take_of_length_le (h (Int.not_lt.mp hn))

theorem filter_inDateRange_none (bars : List Bar) :
    bars.filter (fun b => inDateRange none none b.ts) = bars := by
  simp [inDateRange]

theorem head_min_of_sorted {l : List Bar} (hs : l.Sorted barLE) {bf : Bar}
    (hf : l.head? = some bf) : ∀ b ∈ l, barLE bf b := by
  cases l with
  | nil => cases hf
  | cons x xs =>
      injection hf with hf
      subst hf
      intro b hb
      rcases List.mem_cons.mp hb with rfl | hb
      · exact Nat.le_refl _
      · exact (List.sorted_cons.mp hs).1 b hb

theorem getLast_max_of_sorted :
    ∀ {l : List Bar}, l.Sorted barLE → ∀ {bl : Bar}, l.getLast? = some bl →
      ∀ b ∈ l, barLE b bl
  | [], _, _, hf => by cases hf
  | [x], _, bl, hf => by
      injection hf with hf
      subst hf
      intro b hb
      rcases List.mem_singleton.mp hb with rfl
      exact Nat.le_refl _
  | x :: y :: ys, hs, bl, hf => by
      rw [List.getLast?_cons_cons] at hf
      have hs2 := (List.sorted_cons.mp hs).2
      intro b hb
      rcases List.mem_cons.mp hb with rfl | hb
      · have hbl : bl ∈ y :: ys := by
          have hne : y :: ys ≠ [] := by simp
          rw [List.getLast?_eq_getLast _ hne] at hf
          injection hf with hf
          exact hf ▸ List.getLast_mem hne
        exact (List.sorted_cons.mp hs).1 bl hbl
      · exact getLast_max_of_sorted hs2 hf b hb

theorem le_foldl_max (x : Int) : ∀ (xs : List Int), x ≤ xs.foldl max x
  | [] => le_refl x
  | y :: ys => le_trans (le_max_left x y) (le_foldl_max (max x y) ys)

theorem foldl_max_le_of_mem {y : Int} :
    ∀ {xs : List Int} (x : Int), y ∈ xs → y ≤ xs.foldl max x
  | [], _, h => absurd h (List.not_mem_nil y)
  | z :: zs, x, h => by
      rcases List.mem_cons.mp h with rfl | h2
      · exact le_trans (le_max_right x y) (le_foldl_max (max x y) zs)
      · exact foldl_max_le_of_mem (max x z) h2

theorem foldl_max_mem (x : Int) : ∀ (xs : List Int), xs.foldl max x = x ∨ xs.foldl max x ∈ xs
  | [] => Or.inl rfl
  | y :: ys => by
      rcases foldl_max_mem (max x y) ys with h | h
      · rcases max_choice x y with hx | hy
        · exact Or.inl (by rw [List.foldl_cons, h, hx])
        · refine Or.inr ?_
          rw [List.foldl_cons, h, hy]
          exact List.mem_cons_self y ys
      · exact Or.inr (List.mem_cons_of_mem y h)

theorem listMax_mem : ∀ {xs : List Int}, xs ≠ [] → listMax xs ∈ xs
  | [], h => absurd rfl h
  | x :: xs, _ => by
      show xs.foldl max x ∈ x :: xs
      rcases foldl_max_mem x xs with h | h
      · rw [h]
        exact List.mem_cons_self x xs
      · exact List.mem_cons_of_mem x h

theorem le_listMax {y : Int} : ∀ {xs : List Int}, y ∈ xs → y ≤ listMax xs
  | [], h => absurd h (List.not_mem_nil y)
  | x :: xs, h => by
      show y ≤ xs.foldl max x
      rcases List.mem_cons.mp h with rfl | h2
      · exact le_foldl_max y xs
      · exact foldl_max_le_of_mem x h2

theorem foldl_min_le (x : Int) : ∀ (xs : List Int), xs.foldl min x ≤ x
  | [] => le_refl x
  | y :: ys => le_trans (foldl_min_le (min x y) ys) (min_le_left x y)

theorem foldl_min_le_of_mem {y : Int} :
    ∀ {xs : List Int} (x : Int), y ∈ xs → xs.foldl min x ≤ y
  | [], _, h => absurd h (List.not_mem_nil y)
  | z :: zs, x, h => by
      rcases List.mem_cons.mp h with rfl | h2
      · exact le_trans (foldl_min_le (min x y) zs) (min_le_right x y)
      · exact foldl_min_le_of_mem (min x z) h2

theorem foldl_min_mem (x : Int) : ∀ (xs : List Int), xs.foldl min x = x ∨ xs.foldl min x ∈ xs
  | [] => Or.inl rfl
  | y :: ys => by
      rcases foldl_min_mem (min x y) ys with h | h
      · rcases min_choice x y with hx | hy
        · exact Or.inl (by rw [List.foldl_cons, h, hx])
        · refine Or.inr ?_
          rw [List.foldl_cons, h, hy]
          exact List.mem_cons_self y ys
      · exact Or.inr (List.mem_cons_of_mem y h)

theorem listMin_mem : ∀ {xs : List Int}, xs ≠ [] → listMin xs ∈ xs
  | [], h => absurd rfl h
  | x :: xs, _ => by
      show xs.foldl min x ∈ x :: xs
      rcases foldl_min_mem x xs with h | h
      · rw [h]
        exact List.mem_cons_self x xs
      · exact List.mem_cons_of_mem x h

theorem listMin_le {y : Int} : ∀ {xs : List Int}, y ∈ xs → listMin xs ≤ y
  | [], h => absurd h (List.not_mem_nil y)
  | x :: xs, h => by
      show xs.foldl min x ≤ y
      rcases List.mem_cons.mp h with rfl | h2
      · exact foldl_min_le y xs
      · exact foldl_min_le_of_mem x h2

theorem bucketOf_perm (keyf : Timestamp → Timestamp) (bars : List Bar) (p : Timestamp) :
    List.Perm (bucketOf keyf bars p) (bars.filter (fun b => keyf b.ts == p)) :=
  List.perm_insertionSort barLE _

theorem bucketOf_sorted (keyf : Timestamp → Timestamp) (bars : List Bar) (p : Timestamp) :
    (bucketOf keyf bars p).Sorted barLE :=
  List.sorted_insertionSort barLE _

theorem mem_groupKeys {keyf : Timestamp → Timestamp} {bars : List Bar} {p : Timestamp} :
    p ∈ groupKeys keyf bars ↔ ∃ b ∈ bars, keyf b.ts = p := by
  unfold groupKeys
  rw [(List.perm_insertionSort tsLE _).mem_iff, List.mem_dedup]
  simp [List.mem_map]

theorem groupKeys_nodup (keyf : Timestamp → Timestamp) (bars : List Bar) :
    (groupKeys keyf bars).Nodup :=
  ((List.perm_insertionSort tsLE _).nodup_iff).mpr (List.nodup_dedup _)

theorem groupKeys_sorted (keyf : Timestamp → Timestamp) (bars : List Bar) :
    (groupKeys keyf bars).Sorted tsLE :=
  List.sorted_insertionSort tsLE _

theorem groupKeys_length_le (keyf : Timestamp → Timestamp) (bars : List Bar) :
    (groupKeys keyf bars).length ≤ bars.length := by
  unfold groupKeys
  rw [List.length_insertionSort]
  exact le_trans (List.dedup_sublist _).length_le (le_of_eq (List.length_map _ _))

theorem map_period_mkAgg (g : Timestamp → List Bar) :
    ∀ (l : List Timestamp), (l.map (fun p => mkAgg p (g p))).map AggBar.period = l
  | [] => rfl
  | p :: l => by
      simp only [List.map_cons]
      rw [map_period_mkAgg g l]
      rfl

theorem aggregateBy_periods (keyf : Timestamp → Timestamp) (bars : List Bar) :
    (aggregateBy keyf bars).map AggBar.period = groupKeys keyf bars :=
  map_period_mkAgg _ _

theorem aggregateBy_length (keyf : Timestamp → Timestamp) (bars : List Bar) :
    (aggregateBy keyf bars).length = (groupKeys keyf bars).length :=
  List.length_map _ _

theorem mem_aggregateBy {keyf : Timestamp → Timestamp} {bars : List Bar} {a : AggBar} :
    a ∈ aggregateBy keyf bars ↔
      ∃ p ∈ groupKeys keyf bars, a = mkAgg p (bucketOf keyf bars p) := by
  unfold aggregateBy
  simp only [List.mem_map]
  constructor
  · rintro ⟨p, hp, rfl⟩
    exact ⟨p, hp, rfl⟩
  · rintro ⟨p, hp, rfl⟩
    exact ⟨p, hp, rfl⟩

theorem bucketOf_ne_nil {keyf : Timestamp → Timestamp} {bars : List Bar} {p : Timestamp}
    (h : p ∈ groupKeys keyf bars) : bucketOf keyf bars p ≠ [] := by
  rcases mem_groupKeys.mp h with ⟨b, hb, hk⟩
  have hmem : b ∈ bucketOf keyf bars p := by
    rw [(bucketOf_perm keyf bars p).mem_iff]
    exact List.mem_filter.mpr ⟨hb, by simp [hk]⟩
  exact List.ne_nil_of_mem hmem

theorem aggregate_ok (bars : List Bar) (tf : String) (m : Nat) (s e : Option DateArg)
    (limit : Int) (hm : intervalsList.lookup tf = some m) :
    aggregate_timeframe_data bars tf s e limit =
      .ok (applyLimit limit (aggregateBy (keyFor m)
        (bars.filter (fun b => inDateRange s e b.ts)))) := by
  unfold aggregate_timeframe_data
  rw [hm]

theorem aggregate_ok_eq {bars : List Bar} {tf : String} {m : Nat} {s e : Option DateArg}
    {limit : Int} {out : List AggBar} (hm : intervalsList.lookup tf = some m)
    (hout : aggregate_timeframe_data bars tf s e limit = .ok out) :
    out = applyLimit limit (aggregateBy (keyFor m)
      (bars.filter (fun b => inDateRange s e b.ts))) := by
  rw [aggregate_ok bars tf m s e limit hm] at hout
  exact (Except.ok.inj hout).symm

theorem lookup_pos {tf : String} {m : Nat} :
    ∀ (l : List (String × Nat)), (∀ q ∈ l, 0 < q.snd) → l.lookup tf = some m → 0 < m
  | [], _, h => by cases h
  | (k, v) :: es, hall, h => by
      simp only [List.lookup] at h
      by_cases hk : tf == k
      · simp only [hk] at h
        injection h with h
        exact h ▸ hall (k, v) (List.mem_cons_self _ _)
      · simp only [Bool.not_eq_true] at hk
        simp only [hk] at h
        exact lookup_pos es (fun q hq => hall q (List.mem_cons_of_mem _ hq)) h

theorem interval_pos {tf : String} {m : Nat} (h : intervalsList.lookup tf = some m) :
    0 < m :=
  lookup_pos intervalsList (by decide) h

theorem keyFor_ne_daily {m : Nat} (h : m ≠ 1440) : keyFor m = bucketStart m :=
  if_neg h

theorem keyFor_daily : keyFor 1440 = dateKey :=
  if_pos rfl

theorem keyFor_idem {tf : String} {m : Nat} (hm : intervalsList.lookup tf = some m)
    (t : Timestamp) : keyFor m (keyFor m t) = keyFor m t := by
  by_cases h : m = 1440
  · subst h
    rw [keyFor_daily]
    rfl
  · rw [keyFor_ne_daily h]
    unfold bucketStart
    simp only
    rw [Nat.mul_div_cancel _ (interval_pos hm)]

@[simp] theorem mkAgg_period (p : Timestamp) (bs : List Bar) : (mkAgg p bs).period = p := rfl

@[simp] theorem mkAgg_open (p : Timestamp) (bs : List Bar) :
    (mkAgg p bs).open_price = ((bs.head?).map Bar.open_price).getD 0 := rfl

@[simp] theorem mkAgg_high (p : Timestamp) (bs : List Bar) :
    (mkAgg p bs).high_price = listMax (bs.map Bar.high_price) := rfl

@[simp] theorem mkAgg_low (p : Timestamp) (bs : List Bar) :
    (mkAgg p bs).low_price = listMin (bs.map Bar.low_price) := rfl

@[simp] theorem mkAgg_close (p : Timestamp) (bs : List Bar) :
    (mkAgg p bs).close_price = ((bs.getLast?).map Bar.close_price).getD 0 := rfl

@[simp] theorem mkAgg_volume (p : Timestamp) (bs : List Bar) :
    (mkAgg p bs).volume = (bs.map (fun b => b.volume.getD 0)).sum := rfl

@[simp] theorem mkAgg_count (p : Timestamp) (bs : List Bar) :
    (mkAgg p bs).bar_count = bs.length := rfl

/-- A small healthy store used to instantiate general theorems. -/
def sampleTable : Table :=
  ⟨("gold_bars"), requiredColumns ++ [("volume")],
    [⟨⟨2024, 1, 1, 10, 0, 0⟩, 1, 2, 0, 1, some 3⟩]⟩

/-- A store holding only `sampleTable`. -/
def sampleStore : Store := ⟨[sampleTable]⟩

/-- C10: if the catalog scan fails as a whole (the store connection cannot be
obtained), `detect_trading_tables` swallows the error and returns the empty
sequence; `GET /api/instruments` then responds 200 with an empty JSON list,
and because the empty result is cached, later calls — even against a healthy
store — keep answering 200 with the empty listing until the cache is
cleared or the process restarts. -/
theorem c10_failed_scan_caches_empty_catalog (s : Store) :
    detect_trading_tables none = [] ∧
    get_instruments none none = ((200, []), some []) ∧
    get_instruments (get_instruments none none).2 (some s) = ((200, []), some []) :=
  ⟨rfl, rfl, rfl⟩

/-- C6: a table appears in the catalog listing exactly when its column set
contains all required bar columns (volume not required) and its row count is
positive. -/
theorem c6_catalog_membership_iff (s : Store) (t : Table) (ht : t ∈ s.tables)
    (hnodup : (s.tables.map Table.name).Nodup) :
    ((detect_trading_tables (some s)).any (fun d => d.table_name == t.name)) = true ↔
      (requiredColumns.all (fun c => (t.columns.map lowerName).contains c) = true ∧
        0 < t.bars.length) := by
  unfold detect_trading_tables
  rw [List.any_eq_true]
  constructor
  · rintro ⟨d, hd, hdname⟩
    rw [(List.perm_insertionSort descLE _).mem_iff] at hd
    rcases List.mem_map.mp hd with ⟨u, hu, rfl⟩
    have hun : u.name = t.name := by simpa [mkDesc] using hdname
    have huf := List.mem_filter.mp hu
    have hut : u = t := List.inj_on_of_nodup_map hnodup huf.1 ht hun
    subst hut
    have h2 := huf.2
    unfold tradingPred at h2
    simp only [Bool.and_eq_true, decide_eq_true_eq] at h2
    exact h2
  · rintro ⟨hcols, hcount⟩
    refine ⟨mkDesc t, ?_, by simp [mkDesc]⟩
    rw [(List.perm_insertionSort descLE _).mem_iff]
    refine List.mem_map_of_mem _ (List.mem_filter.mpr ⟨ht, ?_⟩)
    unfold tradingPred
    simp only [Bool.and_eq_true, decide_eq_true_eq]
    exact ⟨hcols, hcount⟩

/-- Witness for C6 at a concrete store: the qualifying sample table is listed
and its qualification test holds. -/
theorem c6_catalog_membership_iff_witness :
    sampleTable ∈ sampleStore.tables ∧
    (sampleStore.tables.map Table.name).Nodup ∧
    (((detect_trading_tables (some sampleStore)).any
        (fun d => d.table_name == sampleTable.name)) = true ↔
      (requiredColumns.all
          (fun c => (sampleTable.columns.map lowerName).contains c) = true ∧
        0 < sampleTable.bars.length)) :=
  ⟨by decide, by decide,
    c6_catalog_membership_iff sampleStore sampleTable (by decide) (by decide)⟩

/-- C4 counterexample: with a well-formed name and an existing table, the
timeframe `7min` is rejected with HTTP status 500 — not 400 as claimed — the
handler's generic `except Exception` catches the aggregator's `ValueError`
and returns `jsonify({'error': str(e)}), 500`. -/
theorem c4_counterexample :
    get_data sampleStore ("gold_bars") ("7min") none none 100 =
      ⟨500, .jsonError ("Unsupported timeframe: " ++ "7min"), false⟩ ∧
    (get_data sampleStore ("gold_bars") ("7min") none none 100).status ≠ 400 := by
  constructor
  · rfl
  · decide

/-- C4 (amended): a request whose timeframe is outside the supported set
fails with the deterministic validation error before any bar data is read
from the store (`barsRead = false`), and the HTTP response is a JSON error
body with status 500 (the `ValueError` raised by the timeframe check is
caught by the handler's generic exception clause). -/
theorem c4_unsupported_timeframe_500_before_read (store : Store)
    (table_name timeframe : String) (s e : Option DateArg) (limitArg : Int) (t : Table)
    (hvalid : validTableName table_name = true)
    (hfind : store.tables.find? (fun u => u.name == table_name) = some t)
    (hraw : timeframe ≠ ("raw"))
    (htf : intervalsList.lookup timeframe = none) :
    get_data store table_name timeframe s e limitArg =
      ⟨500, .jsonError ("Unsupported timeframe: " ++ timeframe), false⟩ := by
  have hraww : (timeframe == ("raw")) = false := by
    simpa using hraw
  unfold get_data aggregate_timeframe_data
  rw [hvalid, hfind, htf]
  simp [hraww]

/-- Witness for C4 at a concrete input. -/
theorem c4_witness :
    validTableName ("gold_bars") = true ∧
    sampleStore.tables.find? (fun u => u.name == ("gold_bars")) = some sampleTable ∧
    ("2h" : String) ≠ ("raw") ∧
    intervalsList.lookup ("2h") = none ∧
    get_data sampleStore ("gold_bars") ("2h") none none 7 =
      ⟨500, .jsonError ("Unsupported timeframe: " ++ "2h"), false⟩ :=
  ⟨by decide, by decide, by decide, by decide,
    c4_unsupported_timeframe_500_before_read sampleStore ("gold_bars") ("2h")
      none none 7 sampleTable (by decide) (by decide) (by decide) (by decide)⟩

theorem get_data_barsRead_gate {store : Store} {table_name timeframe : String}
    {s e : Option DateArg} {limitArg : Int}
    (h : (get_data store table_name timeframe s e limitArg).barsRead = true) :
    validTableName table_name = true ∧ ∃ t ∈ store.tables, t.name = table_name := by
  by_cases hv : validTableName table_name
  · refine ⟨hv, ?_⟩
    unfold get_data at h
    rw [hv] at h
    simp only [Bool.not_true, Bool.false_eq_true, if_false] at h
    cases hfind : store.tables.find? (fun u => u.name == table_name) with
    | none => rw [hfind] at h; simp at h
    | some t =>
        refine ⟨t, List.mem_of_find?_eq_some hfind, ?_⟩
        have hps := List.find?_some hfind
        simpa using hps
  · exfalso
    unfold get_data at h
    rw [Bool.not_eq_true] at hv
    rw [hv] at h
    simp at h

theorem download_data_barsRead_gate {store : Store}
    {table_name format_type timeframe : String}
    {s e : Option DateArg} {limitArg : Int}
    (h : (download_data store table_name format_type timeframe s e limitArg).barsRead = true) :
    validTableName table_name = true ∧ ∃ t ∈ store.tables, t.name = table_name := by
  by_cases hv : validTableName table_name
  · refine ⟨hv, ?_⟩
    unfold download_data at h
    rw [hv] at h
    simp only [Bool.not_true, Bool.false_eq_true, if_false] at h
    by_cases hfmt : (format_type.toLower == ("csv") || format_type.toLower == ("json")) = true
    · rw [hfmt] at h
      simp only [Bool.not_true, Bool.false_eq_true, if_false] at h
      cases hfind : store.tables.find? (fun u => u.name == table_name) with
      | none => rw [hfind] at h; simp at h
      | some t =>
          refine ⟨t, List.mem_of_find?_eq_some hfind, ?_⟩
          have hps := List.find?_some hfind
          simpa using hps
    · rw [Bool.not_eq_true] at hfmt
      rw [hfmt] at h
      simp at h
  · exfalso
    unfold download_data at h
    rw [Bool.not_eq_true] at hv
    rw [hv] at h
    simp at h

/-- C8 (amended): the identifier gates of the query facade.  A name outside
the allowed character set is rejected with HTTP 400 before any query is
built on either endpoint; whenever a bar query executes, the name passed the
character gate and names a table that exists in the store; and any accepted
name consists only of alphanumerics, underscores and hyphens.  The gate
checks existence in the store, not catalog membership, so it does not by
itself restrict access to trading tables (see the counterexample). -/
theorem c8_identifier_double_gate (store : Store)
    (table_name format_type timeframe : String)
    (s e : Option DateArg) (limitArg : Int) :
    (validTableName table_name = false →
      get_data store table_name timeframe s e limitArg =
        ⟨400, .jsonError ("Invalid table name format"), false⟩ ∧
      download_data store table_name format_type timeframe s e limitArg =
        ⟨400, .jsonError ("Invalid table name format"), false⟩) ∧
    ((get_data store table_name timeframe s e limitArg).barsRead = true →
      validTableName table_name = true ∧ ∃ t ∈ store.tables, t.name = table_name) ∧
    ((download_data store table_name format_type timeframe s e limitArg).barsRead = true →
      validTableName table_name = true ∧ ∃ t ∈ store.tables, t.name = table_name) ∧
    (validTableName table_name = true →
      ∀ c ∈ table_name.data, c.isAlphanum = true ∨ c = '_' ∨ c = '-') := by
  refine ⟨?_, get_data_barsRead_gate, download_data_barsRead_gate, ?_⟩
  · intro hv
    constructor
    · unfold get_data
      rw [hv]
      rfl
    · unfold download_data
      rw [hv]
      rfl
  · intro hv c hc
    by_cases h1 : c = '_'
    · exact Or.inr (Or.inl h1)
    · by_cases h2 : c = '-'
      · exact Or.inr (Or.inr h2)
      · left
        unfold validTableName at hv
        simp only [Bool.and_eq_true, List.all_eq_true] at hv
        refine hv.2 c (List.mem_filter.mpr ⟨hc, ?_⟩)
        simp [h1, h2]

/-- A table with the full bar schema but zero rows: excluded from the
catalog, yet reachable through the data endpoint. -/
def emptySchemaTable : Table := ⟨("empty_bars"), requiredColumns ++ [("volume")], []⟩

/-- A store holding only the zero-row bar table. -/
def emptySchemaStore : Store := ⟨[emptySchemaTable]⟩

/-- C8 counterexample: the claim's consequence "data access to non-trading
tables is impossible" fails.  The zero-row table is not a trading table (the
catalog listing is empty), yet the request passes both gates, the bar query
executes against it and the endpoint answers 200. -/
theorem c8_counterexample :
    (get_data emptySchemaStore ("empty_bars") ("raw") none none 100).barsRead = true ∧
    (get_data emptySchemaStore ("empty_bars") ("raw") none none 100).status = 200 ∧
    detect_trading_tables (some emptySchemaStore) = [] := by
  refine ⟨?_, ?_, ?_⟩ <;> decide

/-- Witness for C8's amended theorem at a concrete invalid identifier. -/
theorem c8_witness :
    validTableName ("bad;name") = false ∧
    get_data sampleStore ("bad;name") ("raw") none none 10 =
      ⟨400, .jsonError ("Invalid table name format"), false⟩ :=
  ⟨by decide,
    ((c8_identifier_double_gate sampleStore ("bad;name") ("csv") ("raw")
        none none 10).1 (by decide)).1⟩

/-- C1: for every supported sub-daily interval `m` the aggregator assigns a
bar with timestamp `T` to the calendar-aligned bucket starting at `T`
truncated to the hour plus `floor(minute(T)/m)*m` minutes: the key function
is exactly that formula, every input bar yields an output bucket with that
period whose count is the number of input bars sharing the key, and the two
15-minute boundary bars at 10:14:59 and 10:15:00 land in buckets 10:00 and
10:15 respectively. -/
theorem c1_calendar_aligned_bucketing :
    (∀ (timeframe : String) (m : Nat),
      intervalsList.lookup timeframe = some m → m ≠ 1440 →
      (∀ t : Timestamp, keyFor m t =
        ⟨t.year, t.month, t.day, t.hour, t.minute / m * m, 0⟩) ∧
      ∀ (bars : List Bar) (b : Bar), b ∈ bars →
        ∃ out, aggregate_timeframe_data bars timeframe none none
            (bars.length : Int) = .ok out ∧
          ∃ a ∈ out,
            a.period =
              ⟨b.ts.year, b.ts.month, b.ts.day, b.ts.hour, b.ts.minute / m * m, 0⟩ ∧
            a.bar_count =
              (bars.filter (fun x => keyFor m x.ts == a.period)).length) ∧
    aggregate_timeframe_data [⟨⟨2024, 1, 1, 10, 14, 59⟩, 1, 2, 0, 1, some 5⟩]
        ("15min") none none 10 =
      .ok [⟨⟨2024, 1, 1, 10, 0, 0⟩, 1, 2, 0, 1, 5, 1⟩] ∧
    aggregate_timeframe_data [⟨⟨2024, 1, 1, 10, 15, 0⟩, 1, 2, 0, 1, some 5⟩]
        ("15min") none none 10 =
      .ok [⟨⟨2024, 1, 1, 10, 15, 0⟩, 1, 2, 0, 1, 5, 1⟩] := by
  refine ⟨?_, by decide, by decide⟩
  intro timeframe m hm hne
  constructor
  · intro t
    rw [keyFor_ne_daily hne]
    rfl
  · intro bars b hb
    have hfl : bars.filter (fun x => inDateRange none none x.ts) = bars :=
      filter_inDateRange_none bars
    have hlen : (aggregateBy (keyFor m) bars).length ≤ bars.length := by
      rw [aggregateBy_length]
      exact groupKeys_length_le _ _
    refine ⟨aggregateBy (keyFor m) bars, ?_, ?_⟩
    · rw [aggregate_ok bars timeframe m none none _ hm, hfl, applyLimit_natCast,
        List.take_of_length_le hlen]
    · have hp : keyFor m b.ts ∈ groupKeys (keyFor m) bars :=
        mem_groupKeys.mpr ⟨b, hb, rfl⟩
      refine ⟨mkAgg (keyFor m b.ts) (bucketOf (keyFor m) bars (keyFor m b.ts)),
        ?_, ?_, ?_⟩
      · unfold aggregateBy
        exact List.mem_map_of_mem _ hp
      · rw [mkAgg_period, keyFor_ne_daily hne]
        rfl
      · rw [mkAgg_period, mkAgg_count]
        exact (bucketOf_perm (keyFor m) bars (keyFor m b.ts)).length_eq

/-- A single bar used to instantiate the C1 statement. -/
def wBar : Bar := ⟨⟨2024, 1, 1, 10, 14, 59⟩, 1, 2, 0, 1, some 5⟩

/-- Witness for C1 at the 5-minute interval and a concrete bar. -/
theorem c1_witness :
    intervalsList.lookup ("5min") = some 5 ∧ (5 : Nat) ≠ 1440 ∧ wBar ∈ [wBar] ∧
    (∃ out, aggregate_timeframe_data [wBar] ("5min") none none
        (([wBar] : List Bar).length : Int) = .ok out ∧
      ∃ a ∈ out,
        a.period =
          ⟨wBar.ts.year, wBar.ts.month, wBar.ts.day, wBar.ts.hour,
            wBar.ts.minute / 5 * 5, 0⟩ ∧
        a.bar_count = ([wBar].filter (fun x => keyFor 5 x.ts == a.period)).length) :=
  ⟨by decide, by decide, by decide,
    (c1_calendar_aligned_bucketing.1 ("5min") 5 (by decide) (by decide)).2
      [wBar] wBar (by decide)⟩

/-- The daily-boundary example bars of the spec. -/
def dayBars : List Bar :=
  [⟨⟨2024, 1, 1, 23, 58, 0⟩, 10, 12, 9, 11, some 5⟩,
   ⟨⟨2024, 1, 2, 0, 2, 0⟩, 11, 13, 10, 12, some 7⟩]

/-- The two daily buckets the example bars produce. -/
def dayOut : List AggBar :=
  [⟨⟨2024, 1, 1, 0, 0, 0⟩, 10, 12, 9, 11, 5, 1⟩,
   ⟨⟨2024, 1, 2, 0, 0, 0⟩, 11, 13, 10, 12, 7, 1⟩]

/-- C3: for the daily interval the bucket key is exactly the calendar date
component of the timestamp, the output has one bucket per distinct date in
the input, and the 23:58 / next-day 00:02 example yields two separate daily
buckets. -/
theorem c3_daily_bucket_per_date :
    (∀ t u : Timestamp, dateKey t = dateKey u ↔
      (t.year = u.year ∧ t.month = u.month ∧ t.day = u.day)) ∧
    (∀ (bars : List Bar) (out : List AggBar),
      aggregate_timeframe_data bars ("1day") none none (bars.length : Int) = .ok out →
      out.length = ((bars.map (fun b => dateKey b.ts)).dedup).length) ∧
    aggregate_timeframe_data dayBars ("1day") none none 10 = .ok dayOut := by
  refine ⟨?_, ?_, by decide⟩
  · intro t u
    simp [dateKey, Timestamp.mk.injEq]
  · intro bars out hout
    have hm : intervalsList.lookup ("1day") = some 1440 := by decide
    have h2 := aggregate_ok_eq hm hout
    rw [filter_inDateRange_none, keyFor_daily] at h2
    have hlen : (aggregateBy dateKey bars).length ≤ bars.length := by
      rw [aggregateBy_length]
      exact groupKeys_length_le _ _
    rw [applyLimit_natCast, List.take_of_length_le hlen] at h2
    rw [h2, aggregateBy_length]
    unfold groupKeys
    rw [List.length_insertionSort]

/-- Witness for C3's bucket-count statement at the example input. -/
theorem c3_witness :
    aggregate_timeframe_data dayBars ("1day") none none (dayBars.length : Int) =
      .ok dayOut ∧
    dayOut.length = ((dayBars.map (fun b => dateKey b.ts)).dedup).length :=
  ⟨by decide, c3_daily_bucket_per_date.2.1 dayBars dayOut (by decide)⟩

/-- Ten one-minute bars producing ten buckets at the 1-minute interval. -/
def tenBars : List Bar :=
  (List.range 10).map (fun i =>
    ⟨⟨2024, 1, 1, 10, i, 0⟩, (i : Int), (i : Int), (i : Int), (i : Int), some 1⟩)

/-- The first three buckets of `tenBars` at the 1-minute interval. -/
def firstThreeBuckets : List AggBar :=
  [⟨⟨2024, 1, 1, 10, 0, 0⟩, 0, 0, 0, 0, 1, 1⟩,
   ⟨⟨2024, 1, 1, 10, 1, 0⟩, 1, 1, 1, 1, 1, 1⟩,
   ⟨⟨2024, 1, 1, 10, 2, 0⟩, 2, 2, 2, 2, 1, 1⟩]

/-- C5: the output is the ascending-order prefix of the bucket sequence of
length at most `limit` (exactly `limit` when at least that many buckets
exist), in strictly increasing period order (sorted with pairwise-distinct
periods); with `limit = 3` over an input producing ten buckets, exactly the
first three are returned in ascending order. -/
theorem c5_limit_first_buckets :
    (∀ (bars : List Bar) (tf : String) (m : Nat) (s e : Option DateArg)
        (limit : Nat) (out : List AggBar),
      intervalsList.lookup tf = some m →
      aggregate_timeframe_data bars tf s e (limit : Int) = .ok out →
      out = (aggregateBy (keyFor m)
          (bars.filter (fun b => inDateRange s e b.ts))).take limit ∧
      out.length ≤ limit ∧
      (limit ≤ (aggregateBy (keyFor m)
          (bars.filter (fun b => inDateRange s e b.ts))).length →
        out.length = limit) ∧
      (out.map AggBar.period).Sorted tsLE ∧ (out.map AggBar.period).Nodup) ∧
    aggregate_timeframe_data tenBars ("1min") none none 3 = .ok firstThreeBuckets ∧
    (aggregateBy (keyFor 1) tenBars).length = 10 := by
  refine ⟨?_, by decide, by decide⟩
  intro bars tf m s e limit out hm hout
  have h2 := aggregate_ok_eq hm hout
  rw [applyLimit_natCast] at h2
  have hmap : out.map AggBar.period =
      (groupKeys (keyFor m) (bars.filter (fun b => inDateRange s e b.ts))).take limit := by
    rw [h2, List.map_take, aggregateBy_periods]
  refine ⟨h2, ?_, ?_, ?_, ?_⟩
  · rw [h2, List.length_take]
    exact min_le_left _ _
  · intro hge
    rw [h2, List.length_take]
    omega
  · rw [hmap]
    exact List.Pairwise.sublist (List.take_sublist _ _) (groupKeys_sorted _ _)
  · rw [hmap]
    exact (groupKeys_nodup _ _).sublist (List.take_sublist _ _)

/-- Witness for C5 at the ten-bar input with limit 3. -/
theorem c5_witness :
    intervalsList.lookup ("1min") = some 1 ∧
    aggregate_timeframe_data tenBars ("1min") none none ((3 : Nat) : Int) =
      .ok firstThreeBuckets ∧
    (firstThreeBuckets = (aggregateBy (keyFor 1)
        (tenBars.filter (fun b => inDateRange none none b.ts))).take 3 ∧
      firstThreeBuckets.length ≤ 3 ∧
      (3 ≤ (aggregateBy (keyFor 1)
          (tenBars.filter (fun b => inDateRange none none b.ts))).length →
        firstThreeBuckets.length = 3) ∧
      (firstThreeBuckets.map AggBar.period).Sorted tsLE ∧
      (firstThreeBuckets.map AggBar.period).Nodup) :=
  ⟨by decide, by decide,
    c5_limit_first_buckets.1 tenBars ("1min") 1 none none 3 firstThreeBuckets
      (by decide) (by decide)⟩

/-- C2: every output bucket aggregates exactly its group of input bars (the
in-range bars whose key equals the bucket's period): the group is non-empty,
`open` is the open of a chronologically minimal bar of the group, `close`
the close of a chronologically maximal one, `high`/`low` are attained
maximum/minimum of the group's highs/lows, `volume` is the sum of the
group's volumes with NULLs contributing 0, and `bar_count` is the group
size. -/
theorem c2_bucket_ohlcv (bars : List Bar) (tf : String) (m : Nat)
    (s e : Option DateArg) (limit : Int) (out : List AggBar)
    (hm : intervalsList.lookup tf = some m)
    (hout : aggregate_timeframe_data bars tf s e limit = .ok out)
    (a : AggBar) (ha : a ∈ out) (grp : List Bar)
    (hgrp : grp = (bars.filter (fun b => inDateRange s e b.ts)).filter
        (fun b => keyFor m b.ts == a.period)) :
    grp ≠ [] ∧
    (∃ bf ∈ grp, a.open_price = bf.open_price ∧
      ∀ b ∈ grp, tsCode bf.ts ≤ tsCode b.ts) ∧
    (∃ bl ∈ grp, a.close_price = bl.close_price ∧
      ∀ b ∈ grp, tsCode b.ts ≤ tsCode bl.ts) ∧
    (a.high_price ∈ grp.map Bar.high_price ∧
      ∀ b ∈ grp, b.high_price ≤ a.high_price) ∧
    (a.low_price ∈ grp.map Bar.low_price ∧
      ∀ b ∈ grp, a.low_price ≤ b.low_price) ∧
    a.volume = (grp.map (fun b => b.volume.getD 0)).sum ∧
    a.bar_count = grp.length := by
  have hout2 := aggregate_ok_eq hm hout
  have ha2 : a ∈ aggregateBy (keyFor m)
      (bars.filter (fun b => inDateRange s e b.ts)) := mem_applyLimit (hout2 ▸ ha)
  rcases mem_aggregateBy.mp ha2 with ⟨p, hp, rfl⟩
  rw [mkAgg_period] at hgrp
  set B := bucketOf (keyFor m) (bars.filter (fun b => inDateRange s e b.ts)) p with hBdef
  have hperm : List.Perm B grp := by
    rw [hgrp, hBdef]
    exact bucketOf_perm _ _ _
  have hBne : B ≠ [] := bucketOf_ne_nil hp
  rcases List.exists_cons_of_ne_nil hBne with ⟨x, xs, hB⟩
  have hsort : B.Sorted barLE := bucketOf_sorted _ _ _
  have hlast : B.getLast? = some (B.getLast hBne) := List.getLast?_eq_getLast B hBne
  refine ⟨?_, ?_, ?_, ⟨?_, ?_⟩, ⟨?_, ?_⟩, ?_, ?_⟩
  · intro h
    rw [h] at hperm
    exact hBne (List.Perm.eq_nil hperm)
  · refine ⟨x, hperm.mem_iff.mp (by rw [hB]; exact List.mem_cons_self x xs), ?_, ?_⟩
    · rw [mkAgg_open, hB]
      rfl
    · intro b hb
      exact head_min_of_sorted hsort (by rw [hB]; rfl) b (hperm.mem_iff.mpr hb)
  · refine ⟨B.getLast hBne, hperm.mem_iff.mp (List.getLast_mem hBne), ?_, ?_⟩
    · rw [mkAgg_close, hlast]
      rfl
    · intro b hb
      exact getLast_max_of_sorted hsort hlast b (hperm.mem_iff.mpr hb)
  · rw [mkAgg_high]
    have hmapne : B.map Bar.high_price ≠ [] := by
      rw [hB]
      simp
    exact (hperm.map Bar.high_price).mem_iff.mp (listMax_mem hmapne)
  · intro b hb
    rw [mkAgg_high]
    exact le_listMax (List.mem_map_of_mem _ (hperm.mem_iff.mpr hb))
  · rw [mkAgg_low]
    have hmapne : B.map Bar.low_price ≠ [] := by
      rw [hB]
      simp
    exact (hperm.map Bar.low_price).mem_iff.mp (listMin_mem hmapne)
  · intro b hb
    rw [mkAgg_low]
    exact listMin_le (List.mem_map_of_mem _ (hperm.mem_iff.mpr hb))
  · rw [mkAgg_volume]
    exact (hperm.map (fun b => b.volume.getD 0)).sum_eq
  · rw [mkAgg_count]
    exact hperm.length_eq

/-- Two bars of one 5-minute bucket, the second with a NULL volume. -/
def c2Bars : List Bar :=
  [⟨⟨2024, 1, 1, 10, 2, 0⟩, 10, 12, 9, 11, some 5⟩,
   ⟨⟨2024, 1, 1, 10, 4, 0⟩, 11, 13, 8, 12, none⟩]

/-- The single bucket `c2Bars` produces at the 5-minute interval. -/
def c2Agg : AggBar := ⟨⟨2024, 1, 1, 10, 0, 0⟩, 10, 13, 8, 12, 5, 2⟩

/-- Witness for C2 at a concrete two-bar bucket. -/
theorem c2_witness :
    intervalsList.lookup ("5min") = some 5 ∧
    aggregate_timeframe_data c2Bars ("5min") none none 10 = .ok [c2Agg] ∧
    c2Agg ∈ [c2Agg] ∧
    c2Bars = (c2Bars.filter (fun b => inDateRange none none b.ts)).filter
        (fun b => keyFor 5 b.ts == c2Agg.period) ∧
    (c2Bars ≠ [] ∧
     (∃ bf ∈ c2Bars, c2Agg.open_price = bf.open_price ∧
        ∀ b ∈ c2Bars, tsCode bf.ts ≤ tsCode b.ts) ∧
     (∃ bl ∈ c2Bars, c2Agg.close_price = bl.close_price ∧
        ∀ b ∈ c2Bars, tsCode b.ts ≤ tsCode bl.ts) ∧
     (c2Agg.high_price ∈ c2Bars.map Bar.high_price ∧
        ∀ b ∈ c2Bars, b.high_price ≤ c2Agg.high_price) ∧
     (c2Agg.low_price ∈ c2Bars.map Bar.low_price ∧
        ∀ b ∈ c2Bars, c2Agg.low_price ≤ b.low_price) ∧
     c2Agg.volume = (c2Bars.map (fun b => b.volume.getD 0)).sum ∧
     c2Agg.bar_count = c2Bars.length) :=
  ⟨by decide, by decide, by decide, by decide,
    c2_bucket_ohlcv c2Bars ("5min") 5 none none 10 [c2Agg] (by decide) (by decide)
      c2Agg (by decide) c2Bars (by decide)⟩

theorem length_rawQuery_le {bars : List Bar} {s e : Option DateArg} {limit : Int}
    (h0 : 0 ≤ limit) : (rawQuery bars s e limit).length ≤ limit.toNat := by
  unfold rawQuery
  rw [List.length_map]
  exact length_applyLimit_le h0 _

theorem agg_rows_le {bars : List Bar} {tf : String} {s e : Option DateArg}
    {limit : Int} {out : List AggBar} (h0 : 0 ≤ limit)
    (hok : aggregate_timeframe_data bars tf s e limit = .ok out) :
    out.length ≤ limit.toNat := by
  unfold aggregate_timeframe_data at hok
  cases hlk : intervalsList.lookup tf with
  | none => rw [hlk] at hok; cases hok
  | some m =>
      rw [hlk] at hok
      injection hok with hok
      rw [← hok]
      exact length_applyLimit_le h0 _

theorem get_data_rows_le (store : Store) (table_name timeframe : String)
    (s e : Option DateArg) {limitArg : Int} (h : 0 ≤ limitArg) :
    respRowCount (get_data store table_name timeframe s e limitArg).body ≤
      MAX_DATA_POINTS := by
  have h0 : (0 : Int) ≤ min limitArg ((MAX_DATA_POINTS : Nat) : Int) :=
    le_min h (by decide)
  have h1 : (min limitArg ((MAX_DATA_POINTS : Nat) : Int)).toNat ≤ MAX_DATA_POINTS := by
    simp
  unfold get_data
  by_cases hv : (!validTableName table_name) = true
  · rw [if_pos hv]
    simp [respRowCount]
  · rw [if_neg hv]
    cases hfind : store.tables.find? (fun t => t.name == table_name) with
    | none => simp [respRowCount]
    | some t =>
        simp only [hfind]
        by_cases hraw : (timeframe == ("raw")) = true
        · rw [if_pos hraw]
          by_cases hcols : hasBarColumns t = true
          · rw [if_pos hcols]
            simp only [respRowCount]
            exact le_trans (length_rawQuery_le h0) h1
          · rw [if_neg hcols]
            simp [respRowCount]
        · rw [if_neg hraw]
          cases hagg : aggregate_timeframe_data t.bars timeframe s e
              (min limitArg ((MAX_DATA_POINTS : Nat) : Int)) with
          | error msg =>
              simp only [hagg]
              simp [respRowCount]
          | ok d =>
              simp only [hagg]
              by_cases hcols : hasBarColumns t = true
              · rw [if_pos hcols]
                simp only [respRowCount]
                exact le_trans (agg_rows_le h0 hagg) h1
              · rw [if_neg hcols]
                simp [respRowCount]

theorem download_data_rows_le (store : Store) (table_name format_type timeframe : String)
    (s e : Option DateArg) {limitArg : Int} (h : 0 ≤ limitArg) :
    respRowCount (download_data store table_name format_type timeframe s e limitArg).body ≤
      MAX_DATA_POINTS := by
  have h0 : (0 : Int) ≤ min limitArg ((MAX_DATA_POINTS : Nat) : Int) :=
    le_min h (by decide)
  have h1 : (min limitArg ((MAX_DATA_POINTS : Nat) : Int)).toNat ≤ MAX_DATA_POINTS := by
    simp
  unfold download_data
  by_cases hv : (!validTableName table_name) = true
  · rw [if_pos hv]
    simp [respRowCount]
  · rw [if_neg hv]
    by_cases hfmt : (!(format_type.toLower == ("csv") || format_type.toLower == ("json"))) = true
    · rw [if_pos hfmt]
      simp [respRowCount]
    · rw [if_neg hfmt]
      cases hfind : store.tables.find? (fun t => t.name == table_name) with
      | none => simp [respRowCount]
      | some t =>
          simp only [hfind]
          by_cases hraw : (timeframe == ("raw")) = true
          · rw [if_pos hraw]
            by_cases hcols : hasBarColumns t = true
            · rw [if_pos hcols]
              simp only [respRowCount]
              exact le_trans (length_rawQuery_le h0) h1
            · rw [if_neg hcols]
              simp [respRowCount]
          · rw [if_neg hraw]
            cases hagg : aggregate_timeframe_data t.bars timeframe s e
                (min limitArg ((MAX_DATA_POINTS : Nat) : Int)) with
            | error msg =>
                simp only [hagg]
                simp [respRowCount]
            | ok d =>
                simp only [hagg]
                by_cases hcols : hasBarColumns t = true
                · rw [if_pos hcols]
                  simp only [respRowCount]
                  exact le_trans (agg_rows_le h0 hagg) h1
                · rw [if_neg hcols]
                  simp [respRowCount]

/-- C7 (amended): for every request whose client-supplied limit is
non-negative, the effective limit is clamped server-side with
`min(limit, MAX_DATA_POINTS)`, so both the data endpoint's and the download
endpoint's responses carry at most `MAX_DATA_POINTS` rows.  A negative
client limit defeats the cap: SQLite treats a negative `LIMIT` as unbounded,
and `min` does not raise it (see the counterexample). -/
theorem c7_limit_clamp_bounds_rows (store : Store)
    (table_name format_type timeframe : String) (s e : Option DateArg)
    {limitArg : Int} (h : 0 ≤ limitArg) :
    respRowCount (get_data store table_name timeframe s e limitArg).body ≤
      MAX_DATA_POINTS ∧
    respRowCount (download_data store table_name format_type timeframe s e limitArg).body ≤
      MAX_DATA_POINTS :=
  ⟨get_data_rows_le store table_name timeframe s e h,
    download_data_rows_le store table_name format_type timeframe s e h⟩

/-- Witness for C7 at a concrete request. -/
theorem c7_witness :
    ((0 : Int) ≤ 5) ∧
    respRowCount (get_data sampleStore ("gold_bars") ("raw") none none 5).body ≤
      MAX_DATA_POINTS ∧
    respRowCount (download_data sampleStore ("gold_bars") ("csv") ("raw")
        none none 5).body ≤ MAX_DATA_POINTS :=
  ⟨by decide,
    (c7_limit_clamp_bounds_rows sampleStore ("gold_bars") ("csv") ("raw")
      none none (by decide)).1,
    (c7_limit_clamp_bounds_rows sampleStore ("gold_bars") ("csv") ("raw")
      none none (by decide)).2⟩

/-- A table with `MAX_DATA_POINTS + 1` minute bars on consecutive valid
calendar timestamps. -/
@[irreducible] def bigBars : List Bar :=
  (List.range (MAX_DATA_POINTS + 1)).map (fun i =>
    ⟨⟨2024, 1 + i / 40320, 1 + i / 1440 % 28, i % 1440 / 60, i % 60, 0⟩,
      1, 1, 1, 1, some 1⟩)

/-- The big table wrapped with the bar schema. -/
def bigTable : Table := ⟨("bigbars"), requiredColumns ++ [("volume")], bigBars⟩

/-- A store holding only the big table. -/
def bigStore : Store := ⟨[bigTable]⟩

/-- C7 counterexample: a request with client limit `-1` is not clamped from
below — `min(-1, MAX_DATA_POINTS) = -1` reaches SQLite's `LIMIT`, which
treats a negative bound as "no limit", so the response exceeds the supposed
system-wide maximum. -/
theorem c7_counterexample :
    MAX_DATA_POINTS <
      respRowCount (get_data bigStore ("bigbars") ("raw") none none (-1)).body := by
  have hfind : bigStore.tables.find? (fun t => t.name == ("bigbars")) = some bigTable := by
    have hp : (fun (t : Table) => t.name == ("bigbars")) bigTable = true := by decide
    exact List.find?_cons_of_pos _ hp
  have h1 : get_data bigStore ("bigbars") ("raw") none none (-1) =
      ⟨200, .rawRows (rawQuery bigBars none none
        (min (-1) ((MAX_DATA_POINTS : Nat) : Int))), true⟩ := by
    unfold get_data
    rw [if_neg (by decide)]
    simp only [hfind]
    rw [if_pos (by decide), if_pos (by decide)]
    rfl
  rw [h1]
  simp only [respRowCount]
  have hmin : (min (-1) ((MAX_DATA_POINTS : Nat) : Int)) = -1 := by decide
  unfold rawQuery
  rw [hmin, List.length_map]
  have happ : applyLimit (-1)
      ((bigBars.filter (fun b => inDateRange none none b.ts)).insertionSort barLE) =
      (bigBars.filter (fun b => inDateRange none none b.ts)).insertionSort barLE := by
    unfold applyLimit
    rw [if_pos (by decide)]
  rw [happ, List.length_insertionSort, filter_inDateRange_none]
  unfold bigBars
  rw [List.length_map, List.length_range]
  decide

theorem filter_beq_period_nodup {l : List AggBar} (hnd : (l.map AggBar.period).Nodup)
    {a : AggBar} (ha : a ∈ l) :
    l.filter (fun x => x.period == a.period) = [a] := by
  induction l with
  | nil => cases ha
  | cons y ys ih =>
      rw [List.map_cons, List.nodup_cons] at hnd
      rcases List.mem_cons.mp ha with rfl | ha2
      · rw [List.filter_cons_of_pos (by simp)]
        have hnil : ys.filter (fun x => x.period == a.period) = [] := by
          rw [List.filter_eq_nil_iff]
          intro x hx
          simp only [beq_iff_eq]
          intro hEq
          exact hnd.1 (by rw [← hEq]; exact List.mem_map_of_mem AggBar.period hx)
        rw [hnil]
      · have hya : (y.period == a.period) = false := by
          rw [beq_eq_false_iff_ne]
          intro hEq
          exact hnd.1 (by rw [hEq]; exact List.mem_map_of_mem AggBar.period ha2)
        rw [List.filter_cons_of_neg (by simp [hya])]
        exact ih hnd.2 ha2

/-- C9: aggregation is idempotent.  Reconstructing the output buckets as bars
(`period_start` as timestamp with the aggregated OHLCV values) and running
the aggregator again at the same interval and limit succeeds and reproduces
the same period, open, high, low, close and volume per bucket, with
`bar_count` ignored. -/
theorem c9_aggregation_idempotent (bars : List Bar) (tf : String) (m : Nat)
    (s e : Option DateArg) (limit : Int) (out : List AggBar)
    (hm : intervalsList.lookup tf = some m)
    (hout : aggregate_timeframe_data bars tf s e limit = .ok out) :
    ∃ out2, aggregate_timeframe_data (out.map reconstructBar) tf none none limit =
        .ok out2 ∧
      out2.map stripCount = out.map stripCount := by
  have hout2 := aggregate_ok_eq hm hout
  have hsub : List.Sublist out
      (aggregateBy (keyFor m) (bars.filter (fun b => inDateRange s e b.ts))) := by
    rw [hout2]
    exact applyLimit_sublist _ _
  have hpsub : List.Sublist (out.map AggBar.period)
      (groupKeys (keyFor m) (bars.filter (fun b => inDateRange s e b.ts))) := by
    rw [← aggregateBy_periods (keyFor m) (bars.filter (fun b => inDateRange s e b.ts))]
    exact hsub.map AggBar.period
  have hsorted : (out.map AggBar.period).Sorted tsLE :=
    List.Pairwise.sublist hpsub (groupKeys_sorted _ _)
  have hnodup : (out.map AggBar.period).Nodup :=
    (groupKeys_nodup _ _).sublist hpsub
  have hidem : ∀ a ∈ out, keyFor m a.period = a.period := by
    intro a ha
    have hpmem : a.period ∈ groupKeys (keyFor m)
        (bars.filter (fun b => inDateRange s e b.ts)) :=
      hpsub.subset (List.mem_map_of_mem AggBar.period ha)
    rcases mem_groupKeys.mp hpmem with ⟨b, _, hkey⟩
    rw [← hkey]
    exact keyFor_idem hm b.ts
  have hfl := filter_inDateRange_none (out.map reconstructBar)
  have hkeys : (out.map reconstructBar).map (fun b => keyFor m b.ts) =
      out.map AggBar.period := by
    rw [List.map_map]
    exact List.map_congr_left (fun a ha => hidem a ha)
  have hgk : groupKeys (keyFor m) (out.map reconstructBar) = out.map AggBar.period := by
    unfold groupKeys
    rw [hkeys, List.dedup_eq_self.mpr hnodup]
    exact List.Sorted.insertionSort_eq hsorted
  have hbucket : ∀ a ∈ out,
      bucketOf (keyFor m) (out.map reconstructBar) a.period = [reconstructBar a] := by
    intro a ha
    unfold bucketOf
    have hfm : (out.map reconstructBar).filter (fun b => keyFor m b.ts == a.period) =
        (out.filter ((fun b => keyFor m b.ts == a.period) ∘ reconstructBar)).map
          reconstructBar := by
      rw [List.filter_map]
    rw [hfm]
    have hcongr : out.filter ((fun b => keyFor m b.ts == a.period) ∘ reconstructBar) =
        out.filter (fun x => x.period == a.period) := by
      apply List.filter_congr
      intro x hx
      show (keyFor m x.period == a.period) = (x.period == a.period)
      rw [hidem x hx]
    rw [hcongr, filter_beq_period_nodup hnodup ha]
    rfl
  have hfull : aggregateBy (keyFor m) (out.map reconstructBar) =
      out.map (fun a => mkAgg a.period [reconstructBar a]) := by
    unfold aggregateBy
    rw [hgk, List.map_map]
    apply List.map_congr_left
    intro a ha
    show mkAgg a.period (bucketOf (keyFor m) (out.map reconstructBar) a.period) =
      mkAgg a.period [reconstructBar a]
    rw [hbucket a ha]
  have happly : applyLimit limit (aggregateBy (keyFor m) (out.map reconstructBar)) =
      aggregateBy (keyFor m) (out.map reconstructBar) := by
    apply applyLimit_of_le
    intro h0
    rw [hfull, List.length_map]
    have hlen := length_applyLimit_le h0 (aggregateBy (keyFor m)
      (bars.filter (fun b => inDateRange s e b.ts)))
    rw [← hout2] at hlen
    exact hlen
  refine ⟨aggregateBy (keyFor m) (out.map reconstructBar), ?_, ?_⟩
  · rw [aggregate_ok (out.map reconstructBar) tf m none none limit hm, hfl, happly]
  · rw [hfull, List.map_map]
    apply List.map_congr_left
    intro a _
    show stripCount (mkAgg a.period [reconstructBar a]) = stripCount a
    simp [stripCount, reconstructBar, listMax, listMin]

/-- Witness for C9 at the concrete two-bar bucket. -/
theorem c9_witness :
    intervalsList.lookup ("5min") = some 5 ∧
    aggregate_timeframe_data c2Bars ("5min") none none 10 = .ok [c2Agg] ∧
    (∃ out2, aggregate_timeframe_data ([c2Agg].map reconstructBar) ("5min")
        none none 10 = .ok out2 ∧
      out2.map stripCount = [c2Agg].map stripCount) :=
  ⟨by decide, by decide,
    c9_aggregation_idempotent c2Bars ("5min") 5 none none 10 [c2Agg]
      (by decide) (by decide)⟩
